import Mathlib

/-!
# Verification of the Listy `DataManager` persistence core

A shallow embedding of `src/storage/data_manager.py` (the `DataManager`
class): two independent document collections (todo, shopping), each a map
of list-id to `{name, items}`, a learned-suggestion vocabulary merged with
a static one, load-time migrations, and per-call persistence.

Python strings are modelled as Lean `String`s.  `str.strip()` is
modelled exactly: the finite set of code points CPython's `str.isspace`
accepts is written out in `isSpaceChar`.  Python string comparison
(used by `list.sort` / `sorted`) is lexicographic on code points,
which is exactly Python's semantics.  Python's `str.lower` is a
full-Unicode case mapping that no hand-written table can capture
faithfully; it is therefore kept ABSTRACT: every operation that
compares names case-insensitively takes the platform lowercasing
function as an explicit parameter `low : String → String`, and every
theorem quantifies over `low`, so each statement holds in particular
for CPython's real `str.lower`.  The concrete tables `lowDE` / `upDE`
agree with CPython's `str.lower` / `str.upper` on ASCII and the German
letters (including `'ß'.upper() = "SS"`); they are used only to
instantiate counterexamples and witnesses at concrete inputs, where
the agreement can be checked string by string.

Python `dict`s (which preserve insertion order, and on which the code
relies via `next(iter(d))`) are modelled as insertion-ordered association
lists; `d[k] = v` updates the entry in place when the key exists and
appends otherwise, `del d[k]` removes the entry, both mirroring `dict`.

Persistence (`page.client_storage.set`) is modelled by `stored_*`
fields of the state holding the last written value of each storage key.

The static suggestion vocabulary `SUGGESTIONS` is imported by the module
from `utils.suggestions` (a data-only file that ships with the app); it
is kept as an explicit parameter `SUGG` of every operation that reads
it, so all theorems hold for every static vocabulary.
-/

namespace Listy

/-! ## String model: case mapping, stripping, code-point comparison -/

/-- The exact set of code points CPython's `str.isspace` accepts — the
characters `str.strip()` removes: `\t \n \v \f \r`, the separators
U+001C-U+001F, space, NEL (U+0085), NBSP (U+00A0), Ogham space mark
(U+1680), the U+2000-U+200A spaces, line/paragraph separator
(U+2028/U+2029), narrow NBSP (U+202F), medium mathematical space
(U+205F) and the ideographic space (U+3000). -/
def isSpaceChar (c : Char) : Bool :=
  (9 ≤ c.toNat ∧ c.toNat ≤ 13) ∨ (28 ≤ c.toNat ∧ c.toNat ≤ 32) ∨
  c.toNat = 133 ∨ c.toNat = 160 ∨ c.toNat = 5760 ∨
  (8192 ≤ c.toNat ∧ c.toNat ≤ 8202) ∨ c.toNat = 8232 ∨ c.toNat = 8233 ∨
  c.toNat = 8239 ∨ c.toNat = 8287 ∨ c.toNat = 12288

/-- Core of `str.strip()`: drop leading and trailing whitespace. -/
def stripChars (l : List Char) : List Char :=
  ((l.dropWhile isSpaceChar).reverse.dropWhile isSpaceChar).reverse

/-- Python's `str.strip()` on strings. -/
def pyStrip (s : String) : String := ⟨stripChars s.data⟩

/-- One code point of `lowDE`: CPython's `str.lower` restricted to ASCII
and the German letters — `A`-`Z` map to `a`-`z`, `Ä`/`Ö`/`Ü` map to
`ä`/`ö`/`ü`, and `ß` (which Python lowercases to itself) and everything
else is fixed. -/
def lowCharDE (c : Char) : Char :=
  if 65 ≤ c.toNat ∧ c.toNat ≤ 90 then Char.ofNat (c.toNat + 32)
  else if c = 'Ä' then 'ä'
  else if c = 'Ö' then 'ö'
  else if c = 'Ü' then 'ü'
  else c

/-- A concrete lowercasing function agreeing with CPython's `str.lower`
on strings over ASCII and the German letters; instantiates the abstract
parameter `low` in counterexamples and witnesses. -/
def lowDE (s : String) : String := ⟨s.data.map lowCharDE⟩

/-- One code point of `upDE`: CPython's `str.upper` restricted to ASCII
and the German letters.  Note `'ß'.upper() = "SS"` in Python, so the
result is a list of code points. -/
def upCharDE (c : Char) : List Char :=
  if 97 ≤ c.toNat ∧ c.toNat ≤ 122 then [Char.ofNat (c.toNat - 32)]
  else if c = 'ä' then ['Ä']
  else if c = 'ö' then ['Ö']
  else if c = 'ü' then ['Ü']
  else if c = 'ß' then ['S', 'S']
  else [c]

/-- A concrete uppercasing function agreeing with CPython's `str.upper`
on strings over ASCII and the German letters (in particular
`upDE "Soße" = "SOSSE"`); used to express `N.upper()` at concrete
inputs. -/
def upDE (s : String) : String := ⟨(s.data.map upCharDE).flatten⟩

/-- Python string `<=` (lexicographic on code points), as used by
`list.sort()` and `sorted()`. -/
def lexLe : List Char → List Char → Bool
  | [], _ => true
  | _ :: _, [] => false
  | a :: as, b :: bs => if a < b then true else if b < a then false else lexLe as bs

/-- Python `<=` on strings. -/
def strLeB (a b : String) : Bool := lexLe a.data b.data

instance decStrLeRel : DecidableRel (fun a b : String => strLeB a b = true) :=
  fun _ _ => inferInstanceAs (Decidable (_ = true))

/-- `sorted(...)` / `list.sort()` on a list of strings. -/
def sortStrings (l : List String) : List String :=
  List.insertionSort (fun a b => strLeB a b = true) l

theorem lexLe_total : ∀ l1 l2 : List Char, lexLe l1 l2 = true ∨ lexLe l2 l1 = true
  | [], _ => Or.inl rfl
  | _ :: _, [] => Or.inr rfl
  | a :: as, b :: bs => by
    unfold lexLe
    rcases lt_trichotomy a b with h | h | h
    · left; rw [if_pos h]
    · subst h
      simp only [if_neg (lt_irrefl a)]
      exact lexLe_total as bs
    · right; rw [if_pos h]

theorem lexLe_trans : ∀ l1 l2 l3 : List Char,
    lexLe l1 l2 = true → lexLe l2 l3 = true → lexLe l1 l3 = true
  | [], _, _ => fun _ _ => rfl
  | a :: as, [], _ => fun h _ => by simp [lexLe] at h
  | _ :: _, _ :: _, [] => fun _ h => by simp [lexLe] at h
  | a :: as, b :: bs, c :: cs => fun h1 h2 => by
    unfold lexLe at h1 h2 ⊢
    rcases lt_trichotomy a b with hab | hab | hab
    · rcases lt_trichotomy b c with hbc | hbc | hbc
      · rw [if_pos (lt_trans hab hbc)]
      · subst hbc; rw [if_pos hab]
      · rw [if_pos hbc, if_neg (lt_asymm hbc)] at h2
        exact absurd h2 (by simp)
    · subst hab
      rcases lt_trichotomy a c with hac | hac | hac
      · rw [if_pos hac]
      · subst hac
        rw [if_neg (lt_irrefl a)] at h1 h2 ⊢
        rw [if_neg (lt_irrefl a)] at h1 h2 ⊢
        exact lexLe_trans as bs cs h1 h2
      · rw [if_pos hac, if_neg (lt_asymm hac)] at h2
        exact absurd h2 (by simp)
    · rw [if_pos hab, if_neg (lt_asymm hab)] at h1
      exact absurd h1 (by simp)

instance strLeTotal : IsTotal String (fun a b => strLeB a b = true) :=
  ⟨fun a b => lexLe_total a.data b.data⟩

instance strLeTrans : IsTrans String (fun a b => strLeB a b = true) :=
  ⟨fun a b c => lexLe_trans a.data b.data c.data⟩

/-! ## Data model

Mirrors the JSON shapes of `data_manager.py`:
an `Item` is `{"name": ..., "priority": ..., "is_completed": ...}`,
a `ListData` is `{"name": ..., "items": [...]}`,
a `Collection` is `{"current_list_id": ..., "lists": {...}}`.
-/

structure Item where
  name : String
  priority : String
  is_completed : Bool
deriving DecidableEq

structure ListData where
  name : String
  items : List Item
deriving DecidableEq

/-- A Python `dict` keyed by strings, as an insertion-ordered association list. -/
abbrev Dict (α : Type) := List (String × α)

/-- `d[k]` / `k in d` (as `isSome`): first entry with the key. -/
def dictGet {α : Type} (k : String) : Dict α → Option α
  | [] => none
  | (k', v) :: rest => if k' = k then some v else dictGet k rest

/-- `d[k] = v`: replace the entry in place if the key exists, else append,
as a Python `dict` does. -/
def dictSet {α : Type} : Dict α → String → α → Dict α
  | [], k, v => [(k, v)]
  | (k', v') :: rest, k, v =>
    if k' = k then (k, v) :: rest else (k', v') :: dictSet rest k v

/-- `del d[k]`. -/
def dictDel {α : Type} (m : Dict α) (k : String) : Dict α :=
  m.filter (fun p => ¬ (p.1 = k))

theorem dictGet_cons {α : Type} (k1 k : String) (v1 : α) (rest : Dict α) :
    dictGet k ((k1, v1) :: rest) = if k1 = k then some v1 else dictGet k rest := rfl

theorem dictGet_dictSet {α : Type} (m : Dict α) (k k' : String) (v : α) :
    dictGet k' (dictSet m k v) = if k' = k then some v else dictGet k' m := by
  induction m with
  | nil =>
    rw [show dictSet ([] : Dict α) k v = [(k, v)] from rfl, dictGet_cons]
    by_cases h : k' = k
    · rw [if_pos h.symm, if_pos h]
    · rw [if_neg (fun hc => h hc.symm), if_neg h]
  | cons p rest ih =>
    obtain ⟨k1, v1⟩ := p
    rw [show dictSet ((k1, v1) :: rest) k v =
        if k1 = k then (k, v) :: rest else (k1, v1) :: dictSet rest k v from rfl]
    by_cases h1 : k1 = k
    · rw [if_pos h1, dictGet_cons, dictGet_cons]
      by_cases h2 : k' = k
      · rw [if_pos h2.symm, if_pos h2]
      · rw [if_neg (fun hc => h2 hc.symm), if_neg h2,
          if_neg (fun hc : k1 = k' => h2 (hc ▸ h1 : k' = k))]
    · rw [if_neg h1, dictGet_cons, dictGet_cons, ih]
      by_cases h2 : k1 = k'
      · rw [if_pos h2, if_neg (fun hc : k' = k => h1 (h2.trans hc)), if_pos h2]
      · rw [if_neg h2]
        by_cases h3 : k' = k
        · rw [if_pos h3, if_pos h3]
        · rw [if_neg h3, if_neg h3, if_neg h2]

theorem dictGet_dictDel {α : Type} (m : Dict α) (k k' : String) :
    dictGet k' (dictDel m k) = if k' = k then none else dictGet k' m := by
  induction m with
  | nil => by_cases h : k' = k <;> simp [dictDel, dictGet, h]
  | cons p rest ih =>
    obtain ⟨k1, v1⟩ := p
    by_cases h1 : k1 = k
    · subst h1
      rw [show dictDel ((k1, v1) :: rest) k1 = dictDel rest k1 from by simp [dictDel], ih,
        dictGet_cons]
      by_cases h2 : k' = k1
      · rw [if_pos h2, if_pos h2]
      · rw [if_neg h2, if_neg h2, if_neg (fun hc : k1 = k' => h2 hc.symm)]
    · rw [show dictDel ((k1, v1) :: rest) k = (k1, v1) :: dictDel rest k from by
        simp [dictDel, h1], dictGet_cons, dictGet_cons, ih]
      by_cases h2 : k1 = k'
      · rw [if_pos h2, if_neg (fun hc : k' = k => h1 (h2.trans hc)), if_pos h2]
      · rw [if_neg h2]
        by_cases h3 : k' = k
        · rw [if_pos h3, if_pos h3]
        · rw [if_neg h3, if_neg h3, if_neg h2]

/-- One domain document: `{"current_list_id": ..., "lists": {...}}`
(the todo document additionally carries `"settings"`, kept as a separate
state field below). -/
structure Collection where
  current_list_id : String
  lists : Dict ListData
deriving DecidableEq

/-- The in-memory state of a `DataManager` plus the last value written to
each `client_storage` key (`listy.todo_data`, `listy.shopping_data`,
`listy.user_suggestions`).  `todo_settings` is the `"settings"` entry of
the todo document. -/
structure DMState where
  todo_settings : Dict String
  todo : Collection
  shopping : Collection
  user_suggestions : List String
  stored_todo_settings : Dict String
  stored_todo : Collection
  stored_shopping : Collection
  stored_user_suggestions : List String
deriving DecidableEq

/-- `save_todo`: `client_storage.set(TODO_KEY, todo_data)`. -/
def save_todo (s : DMState) : DMState :=
  { s with stored_todo := s.todo, stored_todo_settings := s.todo_settings }

/-- `save_shopping`: `client_storage.set(SHOPPING_KEY, shopping_data)`. -/
def save_shopping (s : DMState) : DMState :=
  { s with stored_shopping := s.shopping }

/-- `save_user_suggestions`. -/
def save_user_suggestions (s : DMState) : DMState :=
  { s with stored_user_suggestions := s.user_suggestions }

/-- `data = self.shopping_data if mode == "shopping" else self.todo_data`
(read side). -/
def getColl (s : DMState) (mode : String) : Collection :=
  if mode = "shopping" then s.shopping else s.todo

/-- Write back the document selected by `mode`. -/
def setColl (s : DMState) (mode : String) (c : Collection) : DMState :=
  if mode = "shopping" then { s with shopping := c } else { s with todo := c }

/-- `save_shopping() if mode == "shopping" else save_todo()`. -/
def saveData (s : DMState) (mode : String) : DMState :=
  if mode = "shopping" then save_shopping s else save_todo s

/-! ## Suggestion engine (`learn_suggestion`, `get_all_suggestions`)

`SUGG` is the static vocabulary `SUGGESTIONS` imported from
`utils.suggestions`; `low` is the platform's `str.lower`, kept abstract
(the code applies `.lower()` to both sides of every comparison). -/

/-- `learn_suggestion(item_name)`: no-op on empty/short names and on
case-insensitive members of either vocabulary; otherwise append, re-sort
(Python `list.append` + `list.sort()`), and persist. -/
def learn_suggestion (low : String → String) (SUGG : List String) (s : DMState)
    (item_name : String) : DMState :=
  if item_name = "" ∨ item_name.data.length < 2 then s
  else if SUGG.any (fun x => low x = low item_name) then s
  else if s.user_suggestions.any (fun x => low x = low item_name) then s
  else save_user_suggestions
    { s with user_suggestions := sortStrings (s.user_suggestions ++ [item_name]) }

/-- `get_all_suggestions()`: `sorted(list(set(SUGGESTIONS + user)))`.
`Set` deduplication (which in Python is by string equality, i.e.
case-sensitive) is modelled by `List.dedup`; `sorted` by `sortStrings`.
Takes the learned list as its state argument. -/
def get_all_suggestions (SUGG user : List String) : List String :=
  sortStrings (SUGG ++ user).dedup

/-- The normalization loop at the top of `add_task` (lines 312-316):
the first entry of `get_all_suggestions()` whose lowercase form equals
the candidate's lowercase form replaces the candidate. -/
def auto_correct (low : String → String) (SUGG user : List String) (cand : String) : String :=
  match (get_all_suggestions SUGG user).find? (fun x => low x = low cand) with
  | some x => x
  | none => cand

/-! ## List management -/

/-- `_get_current_list_id(mode)` (`data.get("current_list_id", "default")`;
the default never fires on the migrated shape modelled here). -/
def _get_current_list_id (s : DMState) (mode : String) : String :=
  (getColl s mode).current_list_id

/-- `_set_current_list_id(list_id, mode)`: silently ignored when the id is
not a key of `lists`. -/
def _set_current_list_id (s : DMState) (list_id mode : String) : DMState :=
  let c := getColl s mode
  if (dictGet list_id c.lists).isSome then
    saveData (setColl s mode { c with current_list_id := list_id }) mode
  else s

/-- `_create_list(name, mode)`; `new_id` stands for the freshly drawn
`str(uuid.uuid4())[:8]` token, which the method also returns. -/
def _create_list (s : DMState) (new_id name mode : String) : DMState :=
  let c := getColl s mode
  let s1 := setColl s mode { c with lists := dictSet c.lists new_id ⟨name, []⟩ }
  let s2 := _set_current_list_id s1 new_id mode
  saveData s2 mode

/-- `_rename_list(list_id, new_name, mode)`: in-place rename when present,
no-op otherwise. -/
def _rename_list (s : DMState) (list_id new_name mode : String) : DMState :=
  let c := getColl s mode
  match dictGet list_id c.lists with
  | none => s
  | some ld =>
    saveData (setColl s mode { c with lists := dictSet c.lists list_id { ld with name := new_name } }) mode

/-- `_delete_list(list_id, mode)`: refuse `"default"`, refuse when at most
one list remains, delete otherwise; when the deleted list was current,
`next(iter(data["lists"]))` — the first remaining key — becomes current.
(The `getD` fallback covers the empty-`lists` case on which Python's
`next` would raise; it is unreachable while `"default"` is present.) -/
def _delete_list (s : DMState) (list_id mode : String) : Bool × DMState :=
  if list_id = "default" then (false, s)
  else
    let c := getColl s mode
    if c.lists.length ≤ 1 then (false, s)
    else if (dictGet list_id c.lists).isSome then
      let newLists := dictDel c.lists list_id
      let newCur := if c.current_list_id = list_id then
          ((newLists.head?.map Prod.fst).getD c.current_list_id)
        else c.current_list_id
      (true, saveData (setColl s mode { current_list_id := newCur, lists := newLists }) mode)
    else (false, s)

/-! ## Task operations -/

/-- `add_task(task_name, priority, is_completed, mode)`: strip, return
`None` on empty; auto-correct against the suggestion union; in shopping
mode learn the corrected name; return `None` on a case-insensitive
duplicate in the current list; otherwise append and persist.
(The `none` lookup branch is where Python would raise `KeyError`; it is
unreachable while `current_list_id` references an existing list.) -/
def add_task (low : String → String) (SUGG : List String) (s : DMState) (task_name priority : String)
    (is_completed : Bool) (mode : String) : Option Item × DMState :=
  let clean0 := pyStrip task_name
  if clean0 = "" then (none, s)
  else
    let clean_name := auto_correct low SUGG s.user_suggestions clean0
    let s1 := if mode = "shopping" then learn_suggestion low SUGG s clean_name else s
    let c := getColl s1 mode
    match dictGet c.current_list_id c.lists with
    | none => (none, s1)
    | some ld =>
      if ld.items.any (fun it => low it.name = low clean_name) then
        (none, s1)
      else
        let new_task : Item := ⟨clean_name, priority, is_completed⟩
        let newLists := dictSet c.lists c.current_list_id { ld with items := ld.items ++ [new_task] }
        (some new_task, saveData (setColl s1 mode { c with lists := newLists }) mode)

/-- The `for task in tasks: if task["name"] == task_name: ...; break` loop
of `update_task_status`: set the completion flag of the first exact
(case-sensitive) match only. -/
def set_first_completed : List Item → String → Bool → List Item
  | [], _, _ => []
  | it :: rest, nm, fl =>
    if it.name = nm then { it with is_completed := fl } :: rest
    else it :: set_first_completed rest nm fl

/-- `update_task_status(task_name, is_completed, mode)`; saves
unconditionally (also when nothing matched).  (The `none` lookup branch is
Python's `KeyError` path, unreachable under the invariant.) -/
def update_task_status (s : DMState) (task_name : String) (is_completed : Bool)
    (mode : String) : DMState :=
  let c := getColl s mode
  let s1 := match dictGet c.current_list_id c.lists with
    | none => s
    | some ld =>
      let newLists := dictSet c.lists c.current_list_id
        { ld with items := set_first_completed ld.items task_name is_completed }
      setColl s mode { c with lists := newLists }
  saveData s1 mode

/-- `delete_task(task_name, mode)`: keep only items whose name differs
(case-sensitively); persist. -/
def delete_task (s : DMState) (task_name mode : String) : DMState :=
  let c := getColl s mode
  match dictGet c.current_list_id c.lists with
  | none => s
  | some ld =>
    let newLists := dictSet c.lists c.current_list_id { ld with items := ld.items.filter (fun t => ¬ (t.name = task_name)) }
    saveData (setColl s mode { c with lists := newLists }) mode

/-- `clear_tasks(mode)`: empty the current list's items; persist. -/
def clear_tasks (s : DMState) (mode : String) : DMState :=
  let c := getColl s mode
  match dictGet c.current_list_id c.lists with
  | none => s
  | some ld =>
    let newLists := dictSet c.lists c.current_list_id { ld with items := [] }
    saveData (setColl s mode { c with lists := newLists }) mode

/-- `clear_completed_tasks(mode)` (and its alias `clear_shopping_cart`):
keep only uncompleted items; guarded by `current_id in data["lists"]`. -/
def clear_completed_tasks (s : DMState) (mode : String) : DMState :=
  let c := getColl s mode
  match dictGet c.current_list_id c.lists with
  | none => s
  | some ld =>
    let newLists := dictSet c.lists c.current_list_id { ld with items := ld.items.filter (fun t => !t.is_completed) }
    saveData (setColl s mode { c with lists := newLists }) mode

/-! ## Load-time migrations (`DataManager.__init__`, lines 87-128)

A just-loaded domain document may still have the legacy shape: a flat
`"tasks"` array and no `"lists"` map.  `StoredDoc` models such a raw
document with optional fields (`none` = key absent). -/

structure StoredDoc where
  tasks : Option (List Item)
  current_list_id : Option String
  lists : Option (Dict ListData)
deriving DecidableEq

/-- The structural migration (identical for shopping, lines 90-102, and
todo, lines 105-117): when `"lists"` is absent, wrap the legacy `"tasks"`
array into a `default` list named `"Allgemein"` and drop `"tasks"`. -/
def migrate_structure (d : StoredDoc) : StoredDoc :=
  if d.lists = none then
    { tasks := none,
      current_list_id := some "default",
      lists := some [("default", ⟨"Allgemein", d.tasks.getD []⟩)] }
  else d

/-- The localized legacy default-list names replaced for shopping data
(line 121). -/
def shoppingLegacyNames : List String :=
  ["Einkaufsliste", "Shopping List", "购物清单", "買い物リスト"]

/-- Name normalization for the shopping document (lines 120-123): rename
the `default` list to `"Allgemein"` when it carries a known localized
name. -/
def normalize_shopping_default (d : StoredDoc) : StoredDoc :=
  match d.lists with
  | none => d
  | some ls =>
    match dictGet "default" ls with
    | none => d
    | some ld =>
      if ld.name ∈ shoppingLegacyNames then
        { d with lists := some (dictSet ls "default" { ld with name := "Allgemein" }) }
      else d

/-- Name normalization for the todo document (lines 125-128): force the
`default` list's name to `"Allgemein"` whenever it differs. -/
def normalize_todo_default (d : StoredDoc) : StoredDoc :=
  match d.lists with
  | none => d
  | some ls =>
    match dictGet "default" ls with
    | none => d
    | some ld =>
      if ld.name ≠ "Allgemein" then
        { d with lists := some (dictSet ls "default" { ld with name := "Allgemein" }) }
      else d

/-- The full migration/normalization pipeline applied to the todo
document during `__init__`. -/
def migrate_todo (d : StoredDoc) : StoredDoc :=
  normalize_todo_default (migrate_structure d)

/-- The full migration/normalization pipeline applied to the shopping
document during `__init__`. -/
def migrate_shopping (d : StoredDoc) : StoredDoc :=
  normalize_shopping_default (migrate_structure d)

/-! ## The public mutating operations as one step relation -/

/-- One mutating `DataManager` call (the public list/task API; `mode`
selects the domain, `new_id` of `createList` stands for the drawn uuid
token). -/
inductive Op where
  | addTask (name priority : String) (completed : Bool) (mode : String)
  | updateTaskStatus (name : String) (completed : Bool) (mode : String)
  | deleteTask (name mode : String)
  | clearTasks (mode : String)
  | clearCompletedTasks (mode : String)
  | createList (new_id name mode : String)
  | renameList (id new_name mode : String)
  | deleteList (id mode : String)
  | setCurrentListId (id mode : String)
deriving DecidableEq

/-- The domain argument an operation was invoked with. -/
def Op.mode : Op → String
  | .addTask _ _ _ m => m
  | .updateTaskStatus _ _ m => m
  | .deleteTask _ m => m
  | .clearTasks m => m
  | .clearCompletedTasks m => m
  | .createList _ _ m => m
  | .renameList _ _ m => m
  | .deleteList _ m => m
  | .setCurrentListId _ m => m

/-- Whether the operation is `add_task` in shopping mode — the only
operation that touches the learned-suggestion list. -/
def Op.isShoppingAdd : Op → Bool
  | .addTask _ _ _ m => m = "shopping"
  | _ => false

/-- Run one operation on the state (return values dropped). -/
def applyOp (low : String → String) (SUGG : List String) (s : DMState) : Op → DMState
  | .addTask n p cp m => (add_task low SUGG s n p cp m).2
  | .updateTaskStatus n cp m => update_task_status s n cp m
  | .deleteTask n m => delete_task s n m
  | .clearTasks m => clear_tasks s m
  | .clearCompletedTasks m => clear_completed_tasks s m
  | .createList i n m => _create_list s i n m
  | .renameList i n m => _rename_list s i n m
  | .deleteList i m => (_delete_list s i m).2
  | .setCurrentListId i m => _set_current_list_id s i m

/-! ## The documented invariant -/

/-- Invariant of one domain document: `current_list_id` references an
existing entry of `lists`, and `lists` contains a `"default"` entry. -/
def collInv (c : Collection) : Prop :=
  (dictGet c.current_list_id c.lists).isSome ∧ (dictGet "default" c.lists).isSome

instance (c : Collection) : Decidable (collInv c) :=
  inferInstanceAs (Decidable (_ ∧ _))

/-- The invariant for both domains of a state. -/
def stateInv (s : DMState) : Prop := collInv s.todo ∧ collInv s.shopping

instance (s : DMState) : Decidable (stateInv s) :=
  inferInstanceAs (Decidable (_ ∧ _))

/-! ## Concrete states used to instantiate the theorems -/

/-- A collection with the default list plus one extra list, the extra one
current. -/
def sampleColl2 : Collection :=
  ⟨"extra", [("default", ⟨"Allgemein", []⟩), ("extra", ⟨"Work", []⟩)]⟩

/-- A freshly-initialized single-list collection. -/
def sampleColl1 : Collection := ⟨"default", [("default", ⟨"Allgemein", []⟩)]⟩

/-- A state whose two domains both hold `sampleColl2`, fully persisted. -/
def sampleState2 : DMState :=
  ⟨[("language", "en")], sampleColl2, sampleColl2, [], [("language", "en")],
    sampleColl2, sampleColl2, []⟩

/-- A freshly-initialized state. -/
def sampleState1 : DMState :=
  ⟨[("language", "en")], sampleColl1, sampleColl1, [], [("language", "en")],
    sampleColl1, sampleColl1, []⟩

/-! ## C2 — deleteList semantics -/

/-- C2: for every domain and state, `_delete_list` returns `false` and
leaves the whole state unchanged when the id is `"default"` or when the
domain has only one list; for any other existing id with at least two
lists present it returns `true` and removes exactly that entry from
`lists` (no other key's binding changes). -/
theorem deleteList_spec (s : DMState) (mode list_id : String) :
    (list_id = "default" → _delete_list s list_id mode = (false, s)) ∧
    ((getColl s mode).lists.length = 1 → _delete_list s list_id mode = (false, s)) ∧
    (list_id ≠ "default" → 2 ≤ (getColl s mode).lists.length →
      (dictGet list_id (getColl s mode).lists).isSome →
      (_delete_list s list_id mode).1 = true ∧
      dictGet list_id (getColl (_delete_list s list_id mode).2 mode).lists = none ∧
      (∀ k, k ≠ list_id →
        dictGet k (getColl (_delete_list s list_id mode).2 mode).lists =
          dictGet k (getColl s mode).lists)) := by
  refine ⟨fun h => ?_, fun h => ?_, fun h1 h2 h3 => ?_⟩
  · simp [_delete_list, h]
  · by_cases hd : list_id = "default"
    · simp [_delete_list, hd]
    · simp only [_delete_list, if_neg hd]
      rw [if_pos (by omega)]
  · have hdel : _delete_list s list_id mode =
        (true, saveData (setColl s mode
          { current_list_id :=
              if (getColl s mode).current_list_id = list_id then
                (((dictDel (getColl s mode).lists list_id).head?.map Prod.fst).getD
                  (getColl s mode).current_list_id)
              else (getColl s mode).current_list_id,
            lists := dictDel (getColl s mode).lists list_id }) mode) := by
      simp only [_delete_list, if_neg h1]
      rw [if_neg (by omega), if_pos h3]
    have hcoll : getColl (_delete_list s list_id mode).2 mode =
        { current_list_id :=
            if (getColl s mode).current_list_id = list_id then
              (((dictDel (getColl s mode).lists list_id).head?.map Prod.fst).getD
                (getColl s mode).current_list_id)
            else (getColl s mode).current_list_id,
          lists := dictDel (getColl s mode).lists list_id } := by
      rw [hdel]
      by_cases hm : mode = "shopping" <;>
        simp [getColl, setColl, saveData, save_shopping, save_todo, hm]
    refine ⟨by rw [hdel], ?_, fun k hk => ?_⟩
    · rw [hcoll]
      simp [dictGet_dictDel]
    · rw [hcoll]
      simp only [dictGet_dictDel, if_neg hk]

/-- Witness for C2 at a two-list state: deleting the current non-default
list `"extra"` succeeds and removes exactly that entry. -/
theorem deleteList_spec_witness :
    ("extra" : String) ≠ "default" ∧
    2 ≤ (getColl sampleState2 "todo").lists.length ∧
    (dictGet "extra" (getColl sampleState2 "todo").lists).isSome ∧
    ((_delete_list sampleState2 "extra" "todo").1 = true ∧
      dictGet "extra" (getColl (_delete_list sampleState2 "extra" "todo").2 "todo").lists = none ∧
      (∀ k, k ≠ "extra" →
        dictGet k (getColl (_delete_list sampleState2 "extra" "todo").2 "todo").lists =
          dictGet k (getColl sampleState2 "todo").lists)) :=
  ⟨by decide, by decide, by decide,
    (deleteList_spec sampleState2 "todo" "extra").2.2 (by decide) (by decide) (by decide)⟩

/-! ## C9 — validation no-ops return sentinels without mutation -/

/-- C9: an `add_task` whose stripped name is empty returns `None` and
leaves the entire state — in-memory documents and every `stored_*`
persistence field — untouched; an unknown id makes `_set_current_list_id`
a pure no-op; deleting `"default"` returns `false` with the state
untouched.  All expected failures are sentinel return values of total
operations, never exceptions. -/
theorem validation_noop_spec :
    (∀ (low : String → String) (SUGG : List String) (s : DMState)
      (name priority : String) (cp : Bool) (mode : String),
      pyStrip name = "" → add_task low SUGG s name priority cp mode = (none, s)) ∧
    (∀ (s : DMState) (id mode : String),
      dictGet id (getColl s mode).lists = none → _set_current_list_id s id mode = s) ∧
    (∀ (s : DMState) (mode : String), _delete_list s "default" mode = (false, s)) := by
  refine ⟨fun low SUGG s name priority cp mode h => ?_, fun s id mode h => ?_, fun s mode => ?_⟩
  · simp only [add_task, if_pos h]
  · simp only [_set_current_list_id, h, Option.isSome_none, Bool.false_eq_true, if_false]
  · simp [_delete_list]

/-- Witness for C9: a whitespace-only name, an unknown list id, and a
protected deletion, all on a concrete fresh state. -/
theorem validation_noop_spec_witness :
    (pyStrip " " = "" ∧
      add_task lowDE [] sampleState1 " " "medium" false "todo" = (none, sampleState1)) ∧
    (dictGet "nope" (getColl sampleState1 "todo").lists = none ∧
      _set_current_list_id sampleState1 "nope" "todo" = sampleState1) ∧
    _delete_list sampleState1 "default" "shopping" = (false, sampleState1) :=
  ⟨⟨by decide, validation_noop_spec.1 lowDE [] sampleState1 " " "medium" false "todo" (by decide)⟩,
    ⟨by decide, validation_noop_spec.2.1 sampleState1 "nope" "todo" (by decide)⟩,
    validation_noop_spec.2.2 sampleState1 "shopping"⟩

/-! ## C7 — idempotence of the load-time migrations -/

theorem migrate_structure_lists_ne_none (d : StoredDoc) :
    (migrate_structure d).lists ≠ none := by
  unfold migrate_structure
  by_cases h : d.lists = none
  · rw [if_pos h]
    simp
  · rw [if_neg h]
    exact h

theorem migrate_structure_of_ne_none {d : StoredDoc} (h : d.lists ≠ none) :
    migrate_structure d = d := by
  unfold migrate_structure
  rw [if_neg h]

theorem normalize_todo_lists (d : StoredDoc) :
    (normalize_todo_default d).lists = none ↔ d.lists = none := by
  rcases hl : d.lists with _ | ls
  · simp [normalize_todo_default, hl]
  · rcases hg : dictGet "default" ls with _ | ld
    · simp [normalize_todo_default, hl, hg]
    · by_cases hn : ld.name = "Allgemein"
      · simp [normalize_todo_default, hl, hg, hn]
      · simp [normalize_todo_default, hl, hg, hn]

theorem normalize_shopping_lists (d : StoredDoc) :
    (normalize_shopping_default d).lists = none ↔ d.lists = none := by
  rcases hl : d.lists with _ | ls
  · simp [normalize_shopping_default, hl]
  · rcases hg : dictGet "default" ls with _ | ld
    · simp [normalize_shopping_default, hl, hg]
    · by_cases hn : ld.name ∈ shoppingLegacyNames
      · simp [normalize_shopping_default, hl, hg, hn]
      · simp [normalize_shopping_default, hl, hg, hn]

theorem normalize_todo_idem (d : StoredDoc) :
    normalize_todo_default (normalize_todo_default d) = normalize_todo_default d := by
  rcases hl : d.lists with _ | ls
  · simp [normalize_todo_default, hl]
  · rcases hg : dictGet "default" ls with _ | ld
    · simp [normalize_todo_default, hl, hg]
    · by_cases hn : ld.name = "Allgemein"
      · simp [normalize_todo_default, hl, hg, hn]
      · simp [normalize_todo_default, hl, hg, hn, dictGet_dictSet]

theorem normalize_shopping_idem (d : StoredDoc) :
    normalize_shopping_default (normalize_shopping_default d) =
      normalize_shopping_default d := by
  rcases hl : d.lists with _ | ls
  · simp [normalize_shopping_default, hl]
  · rcases hg : dictGet "default" ls with _ | ld
    · simp [normalize_shopping_default, hl, hg]
    · by_cases hn : ld.name ∈ shoppingLegacyNames
      · simp only [shoppingLegacyNames, List.mem_cons, List.not_mem_nil, or_false] at hn
        simp [normalize_shopping_default, shoppingLegacyNames, hl, hg, hn, dictGet_dictSet]
      · simp [normalize_shopping_default, hl, hg, hn]

/-- C7: running the structural migration plus default-name normalization a
second time on already-migrated data is a no-op, for both domains. -/
theorem migration_idempotent (d : StoredDoc) :
    migrate_todo (migrate_todo d) = migrate_todo d ∧
    migrate_shopping (migrate_shopping d) = migrate_shopping d := by
  constructor
  · unfold migrate_todo
    rw [migrate_structure_of_ne_none
      (fun h => migrate_structure_lists_ne_none d ((normalize_todo_lists _).mp h))]
    exact normalize_todo_idem _
  · unfold migrate_shopping
    rw [migrate_structure_of_ne_none
      (fun h => migrate_structure_lists_ne_none d ((normalize_shopping_lists _).mp h))]
    exact normalize_shopping_idem _

/-! ## C1 — every operation preserves the invariant -/

theorem stateInv_saveData {s : DMState} (m : String) (hInv : stateInv s) :
    stateInv (saveData s m) := by
  by_cases hm : m = "shopping" <;>
    simpa [stateInv, saveData, save_todo, save_shopping, hm] using hInv

theorem stateInv_setColl {s : DMState} {c : Collection} (m : String)
    (hInv : stateInv s) (hc : collInv c) : stateInv (setColl s m c) := by
  by_cases hm : m = "shopping"
  · simpa [stateInv, setColl, hm] using ⟨hInv.1, hc⟩
  · simpa [stateInv, setColl, hm] using ⟨hc, hInv.2⟩

theorem getColl_setColl (s : DMState) (m : String) (c : Collection) :
    getColl (setColl s m c) m = c := by
  by_cases hm : m = "shopping" <;> simp [getColl, setColl, hm]

theorem getColl_saveData (s : DMState) (m' m : String) :
    getColl (saveData s m') m = getColl s m := by
  by_cases hm : m' = "shopping" <;> by_cases hm2 : m = "shopping" <;>
    simp [getColl, saveData, save_todo, save_shopping, hm, hm2]

theorem collInv_getColl {s : DMState} (hInv : stateInv s) (m : String) :
    collInv (getColl s m) := by
  unfold getColl
  split
  · exact hInv.2
  · exact hInv.1

theorem isSome_dictGet_dictSet {α : Type} {m : Dict α} {k k' : String} {v : α}
    (h : (dictGet k m).isSome) : (dictGet k (dictSet m k' v)).isSome := by
  rw [dictGet_dictSet]
  split <;> simp [h]

theorem collInv_dictSet_current (c : Collection) (h : collInv c) (ld : ListData) :
    collInv { c with lists := dictSet c.lists c.current_list_id ld } := by
  refine ⟨?_, isSome_dictGet_dictSet h.2⟩
  show (dictGet c.current_list_id (dictSet c.lists c.current_list_id ld)).isSome
  rw [dictGet_dictSet, if_pos rfl]
  rfl

theorem learn_suggestion_frame (low : String → String) (SUGG : List String) (s : DMState)
    (n : String) :
    (learn_suggestion low SUGG s n).todo = s.todo ∧
    (learn_suggestion low SUGG s n).shopping = s.shopping ∧
    (learn_suggestion low SUGG s n).todo_settings = s.todo_settings ∧
    (learn_suggestion low SUGG s n).stored_todo = s.stored_todo ∧
    (learn_suggestion low SUGG s n).stored_shopping = s.stored_shopping ∧
    (learn_suggestion low SUGG s n).stored_todo_settings = s.stored_todo_settings := by
  unfold learn_suggestion save_user_suggestions
  split
  · exact ⟨rfl, rfl, rfl, rfl, rfl, rfl⟩
  · split
    · exact ⟨rfl, rfl, rfl, rfl, rfl, rfl⟩
    · split
      · exact ⟨rfl, rfl, rfl, rfl, rfl, rfl⟩
      · exact ⟨rfl, rfl, rfl, rfl, rfl, rfl⟩

theorem stateInv_learn {low : String → String} {SUGG : List String} {s : DMState} {n : String}
    (hInv : stateInv s) : stateInv (learn_suggestion low SUGG s n) := by
  have h := learn_suggestion_frame low SUGG s n
  exact ⟨h.1.symm ▸ hInv.1, h.2.1.symm ▸ hInv.2⟩

/-- C1: every mutating `DataManager` operation preserves the invariant
that, in both domains, `current_list_id` references an existing list and
a `"default"` list exists — in particular after a `deleteList` of the
current list the new current id still references an existing list. -/
theorem op_preserves_invariant (low : String → String) (SUGG : List String) (op : Op) (s : DMState)
    (hInv : stateInv s) : stateInv (applyOp low SUGG s op) := by
  cases op with
  | addTask n p cp m =>
    simp only [applyOp, add_task]
    by_cases he : pyStrip n = ""
    · rw [if_pos he]
      exact hInv
    · rw [if_neg he]
      have hInv1 : stateInv (if m = "shopping" then
          learn_suggestion low SUGG s (auto_correct low SUGG s.user_suggestions (pyStrip n)) else s) := by
        split
        · exact stateInv_learn hInv
        · exact hInv
      set s1 := if m = "shopping" then
        learn_suggestion low SUGG s (auto_correct low SUGG s.user_suggestions (pyStrip n)) else s with hs1
      split
      · exact hInv1
      · split
        · exact hInv1
        · exact stateInv_saveData m (stateInv_setColl m hInv1
            (collInv_dictSet_current _ (collInv_getColl hInv1 m) _))
  | updateTaskStatus n cp m =>
    simp only [applyOp, update_task_status]
    cases hdg : dictGet (getColl s m).current_list_id (getColl s m).lists with
    | none =>
      exact stateInv_saveData m hInv
    | some ld =>
      exact stateInv_saveData m (stateInv_setColl m hInv
        (collInv_dictSet_current _ (collInv_getColl hInv m) _))
  | deleteTask n m =>
    simp only [applyOp, delete_task]
    cases hdg : dictGet (getColl s m).current_list_id (getColl s m).lists with
    | none =>
      exact hInv
    | some ld =>
      exact stateInv_saveData m (stateInv_setColl m hInv
        (collInv_dictSet_current _ (collInv_getColl hInv m) _))
  | clearTasks m =>
    simp only [applyOp, clear_tasks]
    cases hdg : dictGet (getColl s m).current_list_id (getColl s m).lists with
    | none =>
      exact hInv
    | some ld =>
      exact stateInv_saveData m (stateInv_setColl m hInv
        (collInv_dictSet_current _ (collInv_getColl hInv m) _))
  | clearCompletedTasks m =>
    simp only [applyOp, clear_completed_tasks]
    cases hdg : dictGet (getColl s m).current_list_id (getColl s m).lists with
    | none =>
      exact hInv
    | some ld =>
      exact stateInv_saveData m (stateInv_setColl m hInv
        (collInv_dictSet_current _ (collInv_getColl hInv m) _))
  | createList i n m =>
    simp only [applyOp, _create_list]
    have hc1 : collInv { getColl s m with lists := dictSet (getColl s m).lists i ⟨n, []⟩ } :=
      ⟨isSome_dictGet_dictSet (collInv_getColl hInv m).1,
        isSome_dictGet_dictSet (collInv_getColl hInv m).2⟩
    have hInv1 : stateInv (setColl s m { getColl s m with lists := dictSet (getColl s m).lists i ⟨n, []⟩ }) :=
      stateInv_setColl m hInv hc1
    apply stateInv_saveData
    unfold _set_current_list_id
    simp only [getColl_setColl]
    rw [if_pos (by rw [dictGet_dictSet, if_pos rfl]; rfl)]
    exact stateInv_saveData m (stateInv_setColl m hInv1
      ⟨by rw [dictGet_dictSet, if_pos rfl]; rfl, isSome_dictGet_dictSet (collInv_getColl hInv m).2⟩)
  | renameList i n m =>
    simp only [applyOp, _rename_list]
    cases hdg : dictGet i (getColl s m).lists with
    | none =>
      exact hInv
    | some ld =>
      refine stateInv_saveData m (stateInv_setColl m hInv ⟨?_, ?_⟩)
      · exact isSome_dictGet_dictSet (collInv_getColl hInv m).1
      · exact isSome_dictGet_dictSet (collInv_getColl hInv m).2
  | deleteList i m =>
    simp only [applyOp, _delete_list]
    by_cases hd : i = "default"
    · rw [if_pos hd]
      exact hInv
    · rw [if_neg hd]
      by_cases hlen : (getColl s m).lists.length ≤ 1
      · rw [if_pos hlen]
        exact hInv
      · rw [if_neg hlen]
        by_cases hex : (dictGet i (getColl s m).lists).isSome
        · rw [if_pos hex]
          apply stateInv_saveData
          apply stateInv_setColl m hInv
          have hdef : (dictGet "default" (dictDel (getColl s m).lists i)).isSome := by
            rw [dictGet_dictDel, if_neg (fun hc => hd hc.symm)]
            exact (collInv_getColl hInv m).2
          constructor
          · show (dictGet (if (getColl s m).current_list_id = i then _ else _) _).isSome
            split
            · cases hnl : dictDel (getColl s m).lists i with
              | nil => rw [hnl] at hdef; exact absurd hdef (by simp [dictGet])
              | cons p rest =>
                obtain ⟨k0, v0⟩ := p
                show (dictGet k0 ((k0, v0) :: rest)).isSome = true
                rw [dictGet_cons, if_pos rfl]
                rfl
            · next hcur =>
              show (dictGet (getColl s m).current_list_id (dictDel (getColl s m).lists i)).isSome = true
              rw [dictGet_dictDel, if_neg hcur]
              exact (collInv_getColl hInv m).1
          · exact hdef
        · rw [if_neg hex]
          exact hInv
  | setCurrentListId i m =>
    simp only [applyOp, _set_current_list_id]
    split
    · next hsome =>
      exact stateInv_saveData m (stateInv_setColl m hInv ⟨hsome, (collInv_getColl hInv m).2⟩)
    · exact hInv

/-- Witness for C1: deleting the current list `"extra"` of `sampleState2`
keeps the invariant. -/
theorem op_preserves_invariant_witness :
    stateInv sampleState2 ∧ stateInv (applyOp lowDE [] sampleState2 (Op.deleteList "extra" "todo")) :=
  ⟨by decide, op_preserves_invariant lowDE [] (Op.deleteList "extra" "todo") sampleState2 (by decide)⟩

/-! ## C10 — operations of one domain never touch the other domain -/

theorem learn_todo (low : String → String) (SUGG : List String) (s : DMState) (n : String) :
    (learn_suggestion low SUGG s n).todo = s.todo := (learn_suggestion_frame low SUGG s n).1

theorem learn_shopping (low : String → String) (SUGG : List String) (s : DMState) (n : String) :
    (learn_suggestion low SUGG s n).shopping = s.shopping := (learn_suggestion_frame low SUGG s n).2.1

theorem learn_todo_settings (low : String → String) (SUGG : List String) (s : DMState) (n : String) :
    (learn_suggestion low SUGG s n).todo_settings = s.todo_settings :=
  (learn_suggestion_frame low SUGG s n).2.2.1

theorem learn_stored_todo (low : String → String) (SUGG : List String) (s : DMState) (n : String) :
    (learn_suggestion low SUGG s n).stored_todo = s.stored_todo :=
  (learn_suggestion_frame low SUGG s n).2.2.2.1

theorem learn_stored_shopping (low : String → String) (SUGG : List String) (s : DMState) (n : String) :
    (learn_suggestion low SUGG s n).stored_shopping = s.stored_shopping :=
  (learn_suggestion_frame low SUGG s n).2.2.2.2.1

theorem learn_stored_todo_settings (low : String → String) (SUGG : List String) (s : DMState) (n : String) :
    (learn_suggestion low SUGG s n).stored_todo_settings = s.stored_todo_settings :=
  (learn_suggestion_frame low SUGG s n).2.2.2.2.2

theorem op_frame_todo (low : String → String) (SUGG : List String) (op : Op) (s : DMState)
    (hm : op.mode = "shopping") :
    (applyOp low SUGG s op).todo = s.todo ∧
    (applyOp low SUGG s op).todo_settings = s.todo_settings ∧
    (applyOp low SUGG s op).stored_todo = s.stored_todo ∧
    (applyOp low SUGG s op).stored_todo_settings = s.stored_todo_settings := by
  cases op <;> simp only [Op.mode] at hm <;> subst hm <;>
    simp only [applyOp, add_task, update_task_status, delete_task, clear_tasks,
      clear_completed_tasks, _create_list, _rename_list, _delete_list,
      _set_current_list_id] <;>
    repeat' split
  all_goals
    simp [saveData, save_shopping, save_todo, setColl, getColl,
      learn_todo, learn_todo_settings, learn_stored_todo, learn_stored_todo_settings]

theorem op_frame_shopping (low : String → String) (SUGG : List String) (op : Op) (s : DMState)
    (hm : op.mode = "todo") :
    (applyOp low SUGG s op).shopping = s.shopping ∧
    (applyOp low SUGG s op).stored_shopping = s.stored_shopping := by
  cases op <;> simp only [Op.mode] at hm <;> subst hm <;>
    simp only [applyOp, add_task, update_task_status, delete_task, clear_tasks,
      clear_completed_tasks, _create_list, _rename_list, _delete_list,
      _set_current_list_id] <;>
    repeat' split
  all_goals
    simp [saveData, save_shopping, save_todo, setColl, getColl,
      learn_shopping, learn_stored_shopping]

theorem op_frame_suggestions (low : String → String) (SUGG : List String) (op : Op) (s : DMState)
    (hm : op.isShoppingAdd = false) :
    (applyOp low SUGG s op).user_suggestions = s.user_suggestions ∧
    (applyOp low SUGG s op).stored_user_suggestions = s.stored_user_suggestions := by
  cases op with
  | addTask n p cp m =>
    simp only [Op.isShoppingAdd, decide_eq_false_iff_not] at hm
    simp only [applyOp, add_task]
    repeat' split
    all_goals simp [saveData, save_shopping, save_todo, setColl, getColl, hm]
  | updateTaskStatus n cp m =>
    by_cases hms : m = "shopping" <;>
      simp only [applyOp, update_task_status] <;>
      repeat' split
    all_goals simp [saveData, save_shopping, save_todo, setColl, getColl, hms]
  | deleteTask n m =>
    by_cases hms : m = "shopping" <;>
      simp only [applyOp, delete_task] <;>
      repeat' split
    all_goals simp [saveData, save_shopping, save_todo, setColl, getColl, hms]
  | clearTasks m =>
    by_cases hms : m = "shopping" <;>
      simp only [applyOp, clear_tasks] <;>
      repeat' split
    all_goals simp [saveData, save_shopping, save_todo, setColl, getColl, hms]
  | clearCompletedTasks m =>
    by_cases hms : m = "shopping" <;>
      simp only [applyOp, clear_completed_tasks] <;>
      repeat' split
    all_goals simp [saveData, save_shopping, save_todo, setColl, getColl, hms]
  | createList i n m =>
    by_cases hms : m = "shopping" <;>
      simp only [applyOp, _create_list, _set_current_list_id] <;>
      repeat' split
    all_goals simp [saveData, save_shopping, save_todo, setColl, getColl, hms]
  | renameList i n m =>
    by_cases hms : m = "shopping" <;>
      simp only [applyOp, _rename_list] <;>
      repeat' split
    all_goals simp [saveData, save_shopping, save_todo, setColl, getColl, hms]
  | deleteList i m =>
    by_cases hms : m = "shopping" <;>
      simp only [applyOp, _delete_list] <;>
      repeat' split
    all_goals simp [saveData, save_shopping, save_todo, setColl, getColl, hms]
  | setCurrentListId i m =>
    by_cases hms : m = "shopping" <;>
      simp only [applyOp, _set_current_list_id] <;>
      repeat' split
    all_goals simp [saveData, save_shopping, save_todo, setColl, getColl, hms]

/-- C10: every operation invoked with `mode="shopping"` leaves the whole
todo side (document, settings, and their persisted copies) unchanged;
every operation invoked with `mode="todo"` leaves the shopping side
unchanged; and only `add_task` in shopping mode may change the learned
suggestion list (or its persisted copy). -/
theorem domain_frame (low : String → String) (SUGG : List String) (op : Op) (s : DMState) :
    (op.mode = "shopping" →
      (applyOp low SUGG s op).todo = s.todo ∧
      (applyOp low SUGG s op).todo_settings = s.todo_settings ∧
      (applyOp low SUGG s op).stored_todo = s.stored_todo ∧
      (applyOp low SUGG s op).stored_todo_settings = s.stored_todo_settings) ∧
    (op.mode = "todo" →
      (applyOp low SUGG s op).shopping = s.shopping ∧
      (applyOp low SUGG s op).stored_shopping = s.stored_shopping) ∧
    (op.isShoppingAdd = false →
      (applyOp low SUGG s op).user_suggestions = s.user_suggestions ∧
      (applyOp low SUGG s op).stored_user_suggestions = s.stored_user_suggestions) :=
  ⟨fun h => op_frame_todo low SUGG op s h,
    fun h => op_frame_shopping low SUGG op s h,
    fun h => op_frame_suggestions low SUGG op s h⟩

/-- Witness for C10: a shopping-mode add leaves the todo side untouched,
and a todo-mode clear leaves both the shopping side and the learned
suggestions untouched, at a concrete state. -/
theorem domain_frame_witness :
    ((Op.addTask "Milk" "medium" false "shopping").mode = "shopping" ∧
      ((applyOp lowDE [] sampleState2 (Op.addTask "Milk" "medium" false "shopping")).todo =
          sampleState2.todo ∧
        (applyOp lowDE [] sampleState2 (Op.addTask "Milk" "medium" false "shopping")).todo_settings =
          sampleState2.todo_settings ∧
        (applyOp lowDE [] sampleState2 (Op.addTask "Milk" "medium" false "shopping")).stored_todo =
          sampleState2.stored_todo ∧
        (applyOp lowDE [] sampleState2 (Op.addTask "Milk" "medium" false "shopping")).stored_todo_settings =
          sampleState2.stored_todo_settings)) ∧
    ((Op.clearTasks "todo").mode = "todo" ∧
      ((applyOp lowDE [] sampleState2 (Op.clearTasks "todo")).shopping = sampleState2.shopping ∧
        (applyOp lowDE [] sampleState2 (Op.clearTasks "todo")).stored_shopping =
          sampleState2.stored_shopping)) ∧
    ((Op.clearTasks "todo").isShoppingAdd = false ∧
      ((applyOp lowDE [] sampleState2 (Op.clearTasks "todo")).user_suggestions =
          sampleState2.user_suggestions ∧
        (applyOp lowDE [] sampleState2 (Op.clearTasks "todo")).stored_user_suggestions =
          sampleState2.stored_user_suggestions)) :=
  ⟨⟨by decide, (domain_frame lowDE [] (Op.addTask "Milk" "medium" false "shopping") sampleState2).1
      (by decide)⟩,
    ⟨by decide, (domain_frame lowDE [] (Op.clearTasks "todo") sampleState2).2.1 (by decide)⟩,
    ⟨by decide, (domain_frame lowDE [] (Op.clearTasks "todo") sampleState2).2.2 (by decide)⟩⟩

/-! ## C8 — updateTaskStatus: first exact match only, unconditional save -/

theorem set_first_completed_no_match (l : List Item) (nm : String) (fl : Bool)
    (h : ∀ it ∈ l, it.name ≠ nm) : set_first_completed l nm fl = l := by
  induction l with
  | nil => rfl
  | cons it rest ih =>
    unfold set_first_completed
    rw [if_neg (h it (List.mem_cons_self it rest))]
    rw [ih (fun x hx => h x (List.mem_cons_of_mem it hx))]

theorem set_first_completed_match (l1 : List Item) (a : Item) (l2 : List Item)
    (nm : String) (fl : Bool) (h1 : ∀ b ∈ l1, b.name ≠ nm) (ha : a.name = nm) :
    set_first_completed (l1 ++ a :: l2) nm fl =
      l1 ++ { a with is_completed := fl } :: l2 := by
  induction l1 with
  | nil =>
    rw [List.nil_append, List.nil_append]
    rw [show set_first_completed (a :: l2) nm fl =
      if a.name = nm then { a with is_completed := fl } :: l2
      else a :: set_first_completed l2 nm fl from rfl]
    rw [if_pos ha]
  | cons b rest ih =>
    rw [List.cons_append]
    rw [show set_first_completed (b :: (rest ++ a :: l2)) nm fl =
      if b.name = nm then { b with is_completed := fl } :: (rest ++ a :: l2)
      else b :: set_first_completed (rest ++ a :: l2) nm fl from rfl]
    rw [if_neg (h1 b (List.mem_cons_self b rest)),
      ih (fun x hx => h1 x (List.mem_cons_of_mem b hx)), List.cons_append]

theorem saveData_synced_shopping (s : DMState) (m : String) (hm : m = "shopping") :
    (saveData s m).stored_shopping = (saveData s m).shopping := by
  subst hm
  simp [saveData, save_shopping]

theorem saveData_synced_todo (s : DMState) (m : String) (hm : m ≠ "shopping") :
    (saveData s m).stored_todo = (saveData s m).todo ∧
    (saveData s m).stored_todo_settings = (saveData s m).todo_settings := by
  simp [saveData, save_todo, hm]

/-- C8: `update_task_status` sets the completion flag of only the first
item of the current list whose name equals the argument exactly
(case-sensitively), leaves the items untouched when nothing matches
exactly, and in either case ends with the domain's collection persisted
(the in-memory document equals the stored one). -/
theorem updateTaskStatus_spec (s : DMState) (mode task_name : String) (fl : Bool)
    (ld : ListData)
    (h : dictGet (getColl s mode).current_list_id (getColl s mode).lists = some ld) :
    (∃ ld', dictGet (getColl s mode).current_list_id
        (getColl (update_task_status s task_name fl mode) mode).lists = some ld' ∧
      ld'.name = ld.name ∧
      ((∀ it ∈ ld.items, it.name ≠ task_name) → ld'.items = ld.items) ∧
      (∀ l1 a l2, ld.items = l1 ++ a :: l2 → (∀ b ∈ l1, b.name ≠ task_name) →
        a.name = task_name →
        ld'.items = l1 ++ { a with is_completed := fl } :: l2)) ∧
    (mode = "shopping" → (update_task_status s task_name fl mode).stored_shopping =
      (update_task_status s task_name fl mode).shopping) ∧
    (mode ≠ "shopping" → (update_task_status s task_name fl mode).stored_todo =
      (update_task_status s task_name fl mode).todo ∧
      (update_task_status s task_name fl mode).stored_todo_settings =
      (update_task_status s task_name fl mode).todo_settings) := by
  refine ⟨?_, ?_, ?_⟩
  · refine ⟨{ ld with items := set_first_completed ld.items task_name fl }, ?_, rfl, ?_, ?_⟩
    · simp only [update_task_status, h]
      rw [getColl_saveData, getColl_setColl, dictGet_dictSet, if_pos rfl]
    · exact fun hno => set_first_completed_no_match _ _ _ hno
    · intro l1 a l2 hsplit hno ha
      show set_first_completed ld.items task_name fl = _
      rw [hsplit]
      exact set_first_completed_match l1 a l2 task_name fl hno ha
  · intro hm
    simp only [update_task_status]
    exact saveData_synced_shopping _ _ hm
  · intro hm
    simp only [update_task_status]
    exact saveData_synced_todo _ _ hm

/-- A state whose current todo list holds two items. -/
def sampleStateItems : DMState :=
  ⟨[("language", "en")],
    ⟨"default", [("default", ⟨"Allgemein",
      [⟨"Milk", "medium", false⟩, ⟨"Eggs", "medium", false⟩]⟩)]⟩,
    sampleColl1, [], [("language", "en")],
    ⟨"default", [("default", ⟨"Allgemein",
      [⟨"Milk", "medium", false⟩, ⟨"Eggs", "medium", false⟩]⟩)]⟩,
    sampleColl1, []⟩

/-- Witness for C8: completing `"Eggs"` in a concrete two-item list. -/
theorem updateTaskStatus_spec_witness :
    (dictGet (getColl sampleStateItems "todo").current_list_id
        (getColl sampleStateItems "todo").lists =
      some ⟨"Allgemein", [⟨"Milk", "medium", false⟩, ⟨"Eggs", "medium", false⟩]⟩) ∧
    ((∃ ld', dictGet (getColl sampleStateItems "todo").current_list_id
        (getColl (update_task_status sampleStateItems "Eggs" true "todo") "todo").lists =
          some ld' ∧
      ld'.name = (⟨"Allgemein", [⟨"Milk", "medium", false⟩, ⟨"Eggs", "medium", false⟩]⟩ :
        ListData).name ∧
      ((∀ it ∈ (⟨"Allgemein", [⟨"Milk", "medium", false⟩, ⟨"Eggs", "medium", false⟩]⟩ :
          ListData).items, it.name ≠ "Eggs") → ld'.items =
        (⟨"Allgemein", [⟨"Milk", "medium", false⟩, ⟨"Eggs", "medium", false⟩]⟩ :
          ListData).items) ∧
      (∀ l1 a l2, (⟨"Allgemein", [⟨"Milk", "medium", false⟩, ⟨"Eggs", "medium", false⟩]⟩ :
          ListData).items = l1 ++ a :: l2 → (∀ b ∈ l1, b.name ≠ "Eggs") →
        a.name = "Eggs" →
        ld'.items = l1 ++ { a with is_completed := true } :: l2)) ∧
    ("todo" = "shopping" → (update_task_status sampleStateItems "Eggs" true "todo").stored_shopping =
      (update_task_status sampleStateItems "Eggs" true "todo").shopping) ∧
    ("todo" ≠ "shopping" → (update_task_status sampleStateItems "Eggs" true "todo").stored_todo =
      (update_task_status sampleStateItems "Eggs" true "todo").todo ∧
      (update_task_status sampleStateItems "Eggs" true "todo").stored_todo_settings =
      (update_task_status sampleStateItems "Eggs" true "todo").todo_settings)) :=
  ⟨by decide, updateTaskStatus_spec sampleStateItems "todo" "Eggs" true
    ⟨"Allgemein", [⟨"Milk", "medium", false⟩, ⟨"Eggs", "medium", false⟩]⟩ (by decide)⟩

/-! ## Suggestion-union facts shared by C3, C4, C5 -/

theorem lexLe_refl : ∀ l : List Char, lexLe l l = true
  | [] => rfl
  | a :: as => by
    unfold lexLe
    simp only [if_neg (lt_irrefl a)]
    exact lexLe_refl as

theorem mem_get_all_suggestions (SUGG user : List String) (x : String) :
    x ∈ get_all_suggestions SUGG user ↔ x ∈ SUGG ++ user := by
  unfold get_all_suggestions sortStrings
  rw [(List.perm_insertionSort _ _).mem_iff, List.mem_dedup]

theorem auto_correct_lower (low : String → String) (SUGG user : List String) (cand : String) :
    low (auto_correct low SUGG user cand) = low cand := by
  unfold auto_correct
  cases hf : (get_all_suggestions SUGG user).find? (fun x => low x = low cand) with
  | none => rfl
  | some x =>
    have hx := List.find?_some hf
    simp only [decide_eq_true_eq] at hx
    exact hx

theorem auto_correct_of_no_match (low : String → String) (SUGG user : List String) (cand : String)
    (h : ∀ x ∈ SUGG ++ user, low x ≠ low cand) :
    auto_correct low SUGG user cand = cand := by
  unfold auto_correct
  have hn : (get_all_suggestions SUGG user).find? (fun x => low x = low cand) = none :=
    List.find?_eq_none.mpr (fun x hx => by
      simpa using h x ((mem_get_all_suggestions SUGG user x).mp hx))
  rw [hn]

theorem getColl_learn (low : String → String) (SUGG : List String) (s : DMState) (n m : String) :
    getColl (learn_suggestion low SUGG s n) m = getColl s m := by
  unfold getColl
  split
  · exact learn_shopping low SUGG s n
  · exact learn_todo low SUGG s n

/-- Behaviour of `add_task` on the success path: non-empty stripped name,
current list present, no case-insensitive duplicate.  The canonicalized
name is appended as a new item and returned. -/
theorem add_task_success (low : String → String) (SUGG : List String) (s : DMState)
    (n p : String) (cp : Bool)
    (m : String) (ld : ListData)
    (hstrip : pyStrip n ≠ "")
    (hcur : dictGet (getColl s m).current_list_id (getColl s m).lists = some ld)
    (hnodup : ∀ it ∈ ld.items, low it.name ≠ low (pyStrip n)) :
    (add_task low SUGG s n p cp m).1 =
      some ⟨auto_correct low SUGG s.user_suggestions (pyStrip n), p, cp⟩ ∧
    (getColl (add_task low SUGG s n p cp m).2 m).current_list_id =
      (getColl s m).current_list_id ∧
    dictGet (getColl s m).current_list_id (getColl (add_task low SUGG s n p cp m).2 m).lists =
      some { ld with items := ld.items ++
        [⟨auto_correct low SUGG s.user_suggestions (pyStrip n), p, cp⟩] } := by
  have hg1 : getColl (if m = "shopping" then
      learn_suggestion low SUGG s (auto_correct low SUGG s.user_suggestions (pyStrip n)) else s) m
      = getColl s m := by
    split
    · exact getColl_learn _ _ _ _ _
    · rfl
  have hany : (ld.items.any fun it =>
      low it.name = low (auto_correct low SUGG s.user_suggestions (pyStrip n))) = false := by
    rw [List.any_eq_false]
    intro it hit
    simp only [auto_correct_lower low SUGG s.user_suggestions (pyStrip n), decide_eq_true_eq]
    exact hnodup it hit
  simp only [add_task, if_neg hstrip, hg1, hcur, hany, Bool.false_eq_true, if_false]
  refine ⟨by trivial, ?_, ?_⟩
  · rw [getColl_saveData, getColl_setColl]
  · rw [getColl_saveData, getColl_setColl]
    show dictGet (getColl s m).current_list_id
      (dictSet (getColl s m).lists (getColl s m).current_list_id _) = _
    rw [dictGet_dictSet, if_pos rfl]

/-- Behaviour of `add_task` on the duplicate path: a case-insensitive
match among the current items makes the call return `None` and leave both
domain documents unchanged. -/
theorem add_task_dup (low : String → String) (SUGG : List String) (s : DMState)
    (n p : String) (cp : Bool)
    (m : String) (ld : ListData)
    (hstrip : pyStrip n ≠ "")
    (hcur : dictGet (getColl s m).current_list_id (getColl s m).lists = some ld)
    (hdup : ∃ it ∈ ld.items, low it.name = low (pyStrip n)) :
    (add_task low SUGG s n p cp m).1 = none ∧
    getColl (add_task low SUGG s n p cp m).2 m = getColl s m := by
  have hg1 : getColl (if m = "shopping" then
      learn_suggestion low SUGG s (auto_correct low SUGG s.user_suggestions (pyStrip n)) else s) m
      = getColl s m := by
    split
    · exact getColl_learn _ _ _ _ _
    · rfl
  have hany : (ld.items.any fun it =>
      low it.name = low (auto_correct low SUGG s.user_suggestions (pyStrip n))) = true := by
    rw [List.any_eq_true]
    obtain ⟨it, hit, heq⟩ := hdup
    exact ⟨it, hit, by
      simp only [auto_correct_lower low SUGG s.user_suggestions (pyStrip n), decide_eq_true_eq]
      exact heq⟩
  simp only [add_task, if_neg hstrip, hg1, hcur, hany, if_true]
  exact ⟨by trivial, by trivial⟩

/-! ## C3 — case-insensitive duplicate prevention in addTask -/

/-- C3 counterexample: the program falsifies the claim at `N = "Soße"`.
In CPython `'ß'.upper() = "SS"`, so `"Soße".upper() = "SOSSE"`, and
`"SOSSE".lower() = "sosse"` differs from `"Soße".lower() = "soße"`; the
case-insensitive duplicate check therefore misses, the second call
returns a new item instead of `None`, and the current list ends with
TWO items.  Modelled with the concrete German-range tables
`lowDE`/`upDE`, which agree with CPython on every string involved. -/
theorem addTask_dedup_counterexample :
    pyStrip "Soße" = "Soße" ∧ ("Soße" : String) ≠ "" ∧
    upDE "Soße" = "SOSSE" ∧
    lowDE "SOSSE" ≠ lowDE "Soße" ∧
    (add_task lowDE [] sampleState1 "Soße" "medium" false "todo").1 =
      some ⟨"Soße", "medium", false⟩ ∧
    (add_task lowDE [] (add_task lowDE [] sampleState1 "Soße" "medium" false "todo").2
      (upDE "Soße") "medium" false "todo").1 = some ⟨"SOSSE", "medium", false⟩ ∧
    dictGet "default"
      (getColl (add_task lowDE [] (add_task lowDE [] sampleState1 "Soße" "medium" false
        "todo").2 (upDE "Soße") "medium" false "todo").2 "todo").lists =
      some ⟨"Allgemein", [⟨"Soße", "medium", false⟩, ⟨"SOSSE", "medium", false⟩]⟩ := by
  decide

/-- C3 amended: the two-call scenario holds for `M = N.upper()` exactly
under the condition the counterexample shows is needed — that
lowercasing `N.upper()` agrees with lowercasing `N` (true for every
name without case-expanding letters such as `ß`): starting from an
empty current list, `add_task N` then `add_task M` leaves exactly one
item and the second call returns `None`.  The general part of the
claim is unconditional: for any name with a non-empty stripped form,
an add is rejected (returns `None`, nothing appended) exactly when
some existing item of the current list matches the canonicalized name
case-insensitively.  Both parts hold for EVERY platform lowercasing
function `low`, hence for CPython's `str.lower` in particular. -/
theorem addTask_dedup_amended (low : String → String) (SUGG : List String)
    (s : DMState) (mode N M : String) (ld : ListData)
    (hT : pyStrip N = N) (hNe : N ≠ "")
    (hMT : pyStrip M = M) (hMNe : M ≠ "") (hMlow : low M = low N)
    (hcur : dictGet (getColl s mode).current_list_id (getColl s mode).lists = some ld)
    (hEmpty : ld.items = []) :
    ((add_task low SUGG (add_task low SUGG s N "medium" false mode).2 M
        "medium" false mode).1 = none ∧
      (∃ ld', dictGet (getColl s mode).current_list_id
          (getColl (add_task low SUGG (add_task low SUGG s N "medium" false mode).2 M
            "medium" false mode).2 mode).lists = some ld' ∧
        ld'.items.length = 1)) ∧
    (∀ (t : DMState) (n p : String) (cp : Bool) (ld0 : ListData),
      pyStrip n ≠ "" →
      dictGet (getColl t mode).current_list_id (getColl t mode).lists = some ld0 →
      ((add_task low SUGG t n p cp mode).1 = none ↔
        ∃ it ∈ ld0.items,
          low it.name = low (auto_correct low SUGG t.user_suggestions (pyStrip n)))) := by
  have hstrip1 : pyStrip N ≠ "" := by rw [hT]; exact hNe
  have hnodup1 : ∀ it ∈ ld.items, low it.name ≠ low (pyStrip N) := by
    rw [hEmpty]
    intro it hit
    exact absurd hit (List.not_mem_nil it)
  obtain ⟨h1fst, h1cur, h1get⟩ :=
    add_task_success low SUGG s N "medium" false mode ld hstrip1 hcur hnodup1
  have hstrip2 : pyStrip M ≠ "" := by
    rw [hMT]
    exact hMNe
  have hcur2 : dictGet (getColl (add_task low SUGG s N "medium" false mode).2 mode).current_list_id
      (getColl (add_task low SUGG s N "medium" false mode).2 mode).lists =
      some { ld with items := ld.items ++
        [⟨auto_correct low SUGG s.user_suggestions (pyStrip N), "medium", false⟩] } := by
    rw [h1cur]
    exact h1get
  have hlow : low (auto_correct low SUGG s.user_suggestions (pyStrip N)) =
      low (pyStrip M) := by
    rw [auto_correct_lower low SUGG s.user_suggestions (pyStrip N), hT, hMT, hMlow]
  have hdup2 : ∃ it ∈ ({ ld with items := ld.items ++
      [⟨auto_correct low SUGG s.user_suggestions (pyStrip N), "medium", false⟩] } : ListData).items,
      low it.name = low (pyStrip M) := by
    refine ⟨⟨auto_correct low SUGG s.user_suggestions (pyStrip N), "medium", false⟩, ?_, hlow⟩
    exact List.mem_append_right _ (List.mem_singleton.mpr rfl)
  obtain ⟨h2fst, h2coll⟩ := add_task_dup low SUGG (add_task low SUGG s N "medium" false mode).2
    M "medium" false mode _ hstrip2 hcur2 hdup2
  refine ⟨⟨h2fst, ⟨{ ld with items := ld.items ++
    [⟨auto_correct low SUGG s.user_suggestions (pyStrip N), "medium", false⟩] }, ?_, ?_⟩⟩, ?_⟩
  · rw [h2coll]
    exact h1get
  · show (ld.items ++ _).length = 1
    rw [hEmpty]
    rfl
  · intro t n p cp ld0 hstrip2 hcur2
    constructor
    · intro hnone
      by_contra hnot
      push_neg at hnot
      have hnodup2 : ∀ it ∈ ld0.items, low it.name ≠ low (pyStrip n) := by
        intro it hit
        rw [← auto_correct_lower low SUGG t.user_suggestions (pyStrip n)]
        exact hnot it hit
      have := (add_task_success low SUGG t n p cp mode ld0 hstrip2 hcur2 hnodup2).1
      rw [hnone] at this
      exact Option.noConfusion this
    · intro hdup2
      have hdup3 : ∃ it ∈ ld0.items, low it.name = low (pyStrip n) := by
        obtain ⟨it, hit, heq⟩ := hdup2
        exact ⟨it, hit, by rw [heq, auto_correct_lower low SUGG t.user_suggestions (pyStrip n)]⟩
      exact (add_task_dup low SUGG t n p cp mode ld0 hstrip2 hcur2 hdup3).1

/-- Witness for the amended C3: adding `"milk"` then `"MILK"` (which is
`"milk".upper()` in CPython, with `lowDE "MILK" = lowDE "milk"`) to the
empty current shopping list, with `"Milk"` in the static vocabulary,
leaves one item and the second call returns `None`. -/
theorem addTask_dedup_amended_witness :
    (pyStrip "milk" = "milk" ∧ ("milk" : String) ≠ "" ∧
      pyStrip "MILK" = "MILK" ∧ ("MILK" : String) ≠ "" ∧
      lowDE "MILK" = lowDE "milk" ∧
      dictGet (getColl sampleState1 "shopping").current_list_id
        (getColl sampleState1 "shopping").lists = some ⟨"Allgemein", []⟩ ∧
      (⟨"Allgemein", []⟩ : ListData).items = []) ∧
    (((add_task lowDE ["Milk"]
        (add_task lowDE ["Milk"] sampleState1 "milk" "medium" false "shopping").2
        "MILK" "medium" false "shopping").1 = none ∧
      (∃ ld', dictGet (getColl sampleState1 "shopping").current_list_id
          (getColl (add_task lowDE ["Milk"] (add_task lowDE ["Milk"] sampleState1 "milk"
            "medium" false "shopping").2 "MILK" "medium" false "shopping").2 "shopping").lists =
            some ld' ∧
        ld'.items.length = 1)) ∧
    (∀ (t : DMState) (n p : String) (cp : Bool) (ld0 : ListData),
      pyStrip n ≠ "" →
      dictGet (getColl t "shopping").current_list_id (getColl t "shopping").lists = some ld0 →
      ((add_task lowDE ["Milk"] t n p cp "shopping").1 = none ↔
        ∃ it ∈ ld0.items,
          lowDE it.name = lowDE (auto_correct lowDE ["Milk"] t.user_suggestions (pyStrip n))))) :=
  ⟨⟨by decide, by decide, by decide, by decide, by decide, by decide, by decide⟩,
    addTask_dedup_amended lowDE ["Milk"] sampleState1 "shopping" "milk" "MILK"
      ⟨"Allgemein", []⟩ (by decide) (by decide) (by decide) (by decide) (by decide)
      (by decide) (by decide)⟩

/-! ## C5 — shopping-mode addTask learns before the duplicate check -/

theorem learn_suggestion_appends (low : String → String) (SUGG : List String) (s : DMState)
    (n : String)
    (h1 : n ≠ "") (h2 : ¬ n.data.length < 2)
    (h3 : ∀ x ∈ SUGG ++ s.user_suggestions, low x ≠ low n) :
    (learn_suggestion low SUGG s n).user_suggestions = sortStrings (s.user_suggestions ++ [n]) ∧
    (learn_suggestion low SUGG s n).stored_user_suggestions =
      sortStrings (s.user_suggestions ++ [n]) := by
  have hS : (SUGG.any fun x => low x = low n) = false := by
    rw [List.any_eq_false]
    intro x hx
    simpa using h3 x (List.mem_append_left _ hx)
  have hU : (s.user_suggestions.any fun x => low x = low n) = false := by
    rw [List.any_eq_false]
    intro x hx
    simpa using h3 x (List.mem_append_right _ hx)
  simp only [learn_suggestion, if_neg (not_or.mpr ⟨h1, h2⟩), hS, hU, Bool.false_eq_true,
    if_false, save_user_suggestions]
  exact ⟨by trivial, by trivial⟩

/-- C5: in shopping mode `add_task` hands the canonicalized name to
`learn_suggestion` before the duplicate check, so a non-empty name of
length ≥ 2 with no case-insensitive match anywhere in the suggestion
union is appended to the learned list (and persisted) even when the add
itself then returns `None` because of a duplicate in the current list. -/
theorem shopping_add_learns_before_dup (low : String → String) (SUGG : List String) (s : DMState)
    (name p : String) (cp : Bool)
    (h1 : pyStrip name ≠ "")
    (h2 : 2 ≤ (pyStrip name).data.length)
    (h3 : ∀ x ∈ SUGG ++ s.user_suggestions, low x ≠ low (pyStrip name)) :
    (add_task low SUGG s name p cp "shopping").2.user_suggestions =
      sortStrings (s.user_suggestions ++ [pyStrip name]) ∧
    pyStrip name ∈ (add_task low SUGG s name p cp "shopping").2.user_suggestions ∧
    (add_task low SUGG s name p cp "shopping").2.stored_user_suggestions =
      (add_task low SUGG s name p cp "shopping").2.user_suggestions ∧
    (∀ ld, dictGet (getColl s "shopping").current_list_id
        (getColl s "shopping").lists = some ld →
      (∃ it ∈ ld.items, low it.name = low (pyStrip name)) →
      (add_task low SUGG s name p cp "shopping").1 = none) := by
  have hac : auto_correct low SUGG s.user_suggestions (pyStrip name) = pyStrip name :=
    auto_correct_of_no_match _ _ _ _ h3
  have hlearn := learn_suggestion_appends low SUGG s (pyStrip name) h1 (by omega) h3
  have huser : (add_task low SUGG s name p cp "shopping").2.user_suggestions =
      (learn_suggestion low SUGG s (pyStrip name)).user_suggestions ∧
      (add_task low SUGG s name p cp "shopping").2.stored_user_suggestions =
      (learn_suggestion low SUGG s (pyStrip name)).stored_user_suggestions := by
    simp only [add_task, if_neg h1, hac]
    rw [if_pos trivial]
    split
    · exact ⟨rfl, rfl⟩
    · split
      · exact ⟨rfl, rfl⟩
      · constructor <;> simp [saveData, save_shopping, setColl]
  refine ⟨?_, ?_, ?_, ?_⟩
  · rw [huser.1, hlearn.1]
  · rw [huser.1, hlearn.1]
    exact (List.perm_insertionSort _ _).mem_iff.mpr
      (List.mem_append_right _ (List.mem_singleton.mpr rfl))
  · rw [huser.1, huser.2, hlearn.1, hlearn.2]
  · intro ld hld hdup
    exact (add_task_dup low SUGG s name p cp "shopping" ld h1 hld hdup).1

/-- Witness for C5: learning `"bread"` while adding it in shopping mode
on a concrete fresh state. -/
theorem shopping_add_learns_before_dup_witness :
    (pyStrip "bread" ≠ "" ∧ 2 ≤ (pyStrip "bread").data.length ∧
      (∀ x ∈ ["Milk"] ++ sampleState1.user_suggestions,
        lowDE x ≠ lowDE (pyStrip "bread"))) ∧
    ((add_task lowDE ["Milk"] sampleState1 "bread" "medium" false "shopping").2.user_suggestions =
      sortStrings (sampleState1.user_suggestions ++ [pyStrip "bread"]) ∧
    pyStrip "bread" ∈
      (add_task lowDE ["Milk"] sampleState1 "bread" "medium" false "shopping").2.user_suggestions ∧
    (add_task lowDE ["Milk"] sampleState1 "bread" "medium" false "shopping").2.stored_user_suggestions =
      (add_task lowDE ["Milk"] sampleState1 "bread" "medium" false "shopping").2.user_suggestions ∧
    (∀ ld, dictGet (getColl sampleState1 "shopping").current_list_id
        (getColl sampleState1 "shopping").lists = some ld →
      (∃ it ∈ ld.items, lowDE it.name = lowDE (pyStrip "bread")) →
      (add_task lowDE ["Milk"] sampleState1 "bread" "medium" false "shopping").1 = none)) :=
  ⟨⟨by decide, by decide, by decide⟩,
    shopping_add_learns_before_dup lowDE ["Milk"] sampleState1 "bread" "medium" false
      (by decide) (by decide) (by decide)⟩

/-! ## C6 — allSuggestions: sorted, case-insensitively deduplicated union -/

/-- Case-insensitive distinctness of a vocabulary: two members that agree
up to lowercasing are the same string.  `learn_suggestion` maintains this
for the union of the static and learned lists, and it holds on first run
(the learned list starts empty). -/
def ciDistinct (low : String → String) (l : List String) : Prop :=
  ∀ a ∈ l, ∀ b ∈ l, low a = low b → a = b

instance (low : String → String) (l : List String) : Decidable (ciDistinct low l) :=
  inferInstanceAs (Decidable (∀ a ∈ l, ∀ b ∈ l, _ → _))

/-- C6: on every vocabulary state reachable through `learn_suggestion`
(captured by the `ciDistinct` invariant, which the second conjunct shows
is preserved by learning), `get_all_suggestions` returns a sorted list
in which no two entries agree case-insensitively, every union member is
represented by exactly one case-variant, and every entry comes from the
union. -/
theorem allSuggestions_spec :
    (∀ (low : String → String) (SUGG user : List String), ciDistinct low (SUGG ++ user) →
      List.Sorted (fun a b => strLeB a b = true) (get_all_suggestions SUGG user) ∧
      List.Pairwise (fun a b => low a ≠ low b) (get_all_suggestions SUGG user) ∧
      (∀ x ∈ SUGG ++ user, ∃ y ∈ get_all_suggestions SUGG user, low y = low x) ∧
      (∀ y ∈ get_all_suggestions SUGG user, y ∈ SUGG ++ user)) ∧
    (∀ (low : String → String) (SUGG : List String) (s : DMState) (n : String),
      ciDistinct low (SUGG ++ s.user_suggestions) →
      ciDistinct low (SUGG ++ (learn_suggestion low SUGG s n).user_suggestions)) := by
  constructor
  · intro low SUGG user h
    refine ⟨List.sorted_insertionSort _ _, ?_, ?_, ?_⟩
    · have hnd : ((SUGG ++ user).dedup).Pairwise (fun a b => a ≠ b) := List.nodup_dedup _
      have himp : ((SUGG ++ user).dedup).Pairwise (fun a b => low a ≠ low b) := by
        refine hnd.imp_of_mem ?_
        intro a b ha hb hab hl
        exact hab (h a (List.mem_dedup.mp ha) b (List.mem_dedup.mp hb) hl)
      exact (List.Perm.pairwise_iff (fun hab hl => hab hl.symm)
        (List.perm_insertionSort _ _)).mpr himp
    · intro x hx
      exact ⟨x, (mem_get_all_suggestions _ _ _).mpr hx, rfl⟩
    · intro y hy
      exact (mem_get_all_suggestions _ _ _).mp hy
  · intro low SUGG s n h
    simp only [learn_suggestion]
    by_cases c1 : n = "" ∨ n.data.length < 2
    · rw [if_pos c1]
      exact h
    · rw [if_neg c1]
      by_cases c2 : (SUGG.any fun x => low x = low n) = true
      · rw [if_pos c2]
        exact h
      · rw [if_neg c2]
        by_cases c3 : (s.user_suggestions.any fun x => low x = low n) = true
        · rw [if_pos c3]
          exact h
        · rw [if_neg c3]
          show ciDistinct low (SUGG ++ sortStrings (s.user_suggestions ++ [n]))
          have hS' : ∀ x ∈ SUGG, low x ≠ low n := by
            rw [Bool.not_eq_true, List.any_eq_false] at c2
            intro x hx
            simpa using c2 x hx
          have hU' : ∀ x ∈ s.user_suggestions, low x ≠ low n := by
            rw [Bool.not_eq_true, List.any_eq_false] at c3
            intro x hx
            simpa using c3 x hx
          have hmem : ∀ z, z ∈ SUGG ++ sortStrings (s.user_suggestions ++ [n]) →
              z ∈ SUGG ++ s.user_suggestions ∨ z = n := by
            intro z hz
            rcases List.mem_append.mp hz with hz | hz
            · exact Or.inl (List.mem_append_left _ hz)
            · rcases List.mem_append.mp ((List.perm_insertionSort _ _).mem_iff.mp hz) with
                h' | h'
              · exact Or.inl (List.mem_append_right _ h')
              · exact Or.inr (List.mem_singleton.mp h')
          have hnotn : ∀ z, z ∈ SUGG ++ s.user_suggestions → low z ≠ low n := by
            intro z hz
            rcases List.mem_append.mp hz with hz | hz
            · exact hS' z hz
            · exact hU' z hz
          intro a ha b hb hl
          rcases hmem a ha with ha' | ha' <;> rcases hmem b hb with hb' | hb'
          · exact h a ha' b hb' hl
          · subst hb'
            exact absurd hl (hnotn a ha')
          · subst ha'
            exact absurd hl.symm (hnotn b hb')
          · rw [ha', hb']

/-- Witness for C6 on a concrete two-entry vocabulary. -/
theorem allSuggestions_spec_witness :
    ciDistinct lowDE (["Milk"] ++ ["bread"]) ∧
    (List.Sorted (fun a b => strLeB a b = true) (get_all_suggestions ["Milk"] ["bread"]) ∧
      List.Pairwise (fun a b => lowDE a ≠ lowDE b) (get_all_suggestions ["Milk"] ["bread"]) ∧
      (∀ x ∈ ["Milk"] ++ ["bread"],
        ∃ y ∈ get_all_suggestions ["Milk"] ["bread"], lowDE y = lowDE x) ∧
      (∀ y ∈ get_all_suggestions ["Milk"] ["bread"], y ∈ ["Milk"] ++ ["bread"])) :=
  ⟨by decide, allSuggestions_spec.1 lowDE ["Milk"] ["bread"] (by decide)⟩

/-! ## C4 — canonical casing comes from the SORTED union, not
static-before-learned encounter order -/

/-- A fresh state whose learned list holds the single entry `"Milk"`. -/
def c4State : DMState :=
  ⟨[("language", "en")], sampleColl1, sampleColl1, ["Milk"], [("language", "en")],
    sampleColl1, sampleColl1, ["Milk"]⟩

/-- C4 counterexample: with static vocabulary `["milk"]` and learned list
`["Milk"]`, both entries match the candidate `"MILK"` case-insensitively,
yet `add_task` stores the casing `"Milk"` — the learned entry, because
`"Milk" < "milk"` in the sorted union — and not the static entry's
casing `"milk"`, contradicting the static-list-first encounter-order
rule. -/
theorem canonical_casing_counterexample :
    ("milk" ∈ (["milk"] : List String)) ∧
    "Milk" ∈ c4State.user_suggestions ∧
    lowDE "milk" = lowDE (pyStrip "MILK") ∧
    lowDE "Milk" = lowDE (pyStrip "MILK") ∧
    (add_task lowDE ["milk"] c4State "MILK" "medium" false "todo").1 =
      some ⟨"Milk", "medium", false⟩ ∧
    ("Milk" : String) ≠ "milk" := by decide

theorem find?_sorted_min (l : List String)
    (hs : List.Sorted (fun a b => strLeB a b = true) l)
    (p : String → Bool) (x : String) (hf : l.find? p = some x) :
    ∀ y ∈ l, p y = true → strLeB x y = true := by
  induction l with
  | nil => simp at hf
  | cons z rest ih =>
    rw [List.sorted_cons] at hs
    by_cases hz : p z = true
    · rw [List.find?_cons_of_pos _ hz] at hf
      have hx := Option.some.inj hf
      subst hx
      intro y hy hpy
      rcases List.mem_cons.mp hy with rfl | hy'
      · exact lexLe_refl _
      · exact hs.1 y hy'
    · rw [List.find?_cons_of_neg _ (by simpa using hz)] at hf
      intro y hy hpy
      rcases List.mem_cons.mp hy with rfl | hy'
      · exact absurd hpy hz
      · exact ih hs.2 hf y hy' hpy

/-- C4 amended: when some entry of the suggestion union matches the
candidate case-insensitively, the stored casing (`auto_correct`, the
normalization loop of `add_task`) is a matching union entry that is
lexicographically least among all matching entries — the first match in
the sorted deduplicated union — regardless of whether it comes from the
static or the learned list. -/
theorem canonical_casing_amended (low : String → String) (SUGG user : List String) (cand x : String)
    (hx : x ∈ SUGG ++ user) (hmatch : low x = low cand) :
    auto_correct low SUGG user cand ∈ SUGG ++ user ∧
    low (auto_correct low SUGG user cand) = low cand ∧
    (∀ y ∈ SUGG ++ user, low y = low cand →
      strLeB (auto_correct low SUGG user cand) y = true) := by
  have hxout : x ∈ get_all_suggestions SUGG user := (mem_get_all_suggestions _ _ _).mpr hx
  cases hf : (get_all_suggestions SUGG user).find? (fun y => low y = low cand) with
  | none =>
    exfalso
    rw [List.find?_eq_none] at hf
    exact absurd hmatch (by simpa using hf x hxout)
  | some x0 =>
    have hx0mem : x0 ∈ get_all_suggestions SUGG user := List.mem_of_find?_eq_some hf
    have hx0p : low x0 = low cand := by simpa using List.find?_some hf
    have hac : auto_correct low SUGG user cand = x0 := by
      unfold auto_correct
      rw [hf]
    refine ⟨?_, ?_, ?_⟩
    · rw [hac]
      exact (mem_get_all_suggestions _ _ _).mp hx0mem
    · rw [hac]
      exact hx0p
    · intro y hy hylow
      rw [hac]
      exact find?_sorted_min _ (List.sorted_insertionSort _ _) _ x0 hf y
        ((mem_get_all_suggestions _ _ _).mpr hy) (by simpa using hylow)

/-- Witness for the amended C4 at the counterexample's inputs. -/
theorem canonical_casing_amended_witness :
    ("milk" ∈ ["milk"] ++ ["Milk"] ∧ lowDE "milk" = lowDE "MILK") ∧
    (auto_correct lowDE ["milk"] ["Milk"] "MILK" ∈ ["milk"] ++ ["Milk"] ∧
      lowDE (auto_correct lowDE ["milk"] ["Milk"] "MILK") = lowDE "MILK" ∧
      (∀ y ∈ ["milk"] ++ ["Milk"], lowDE y = lowDE "MILK" →
        strLeB (auto_correct lowDE ["milk"] ["Milk"] "MILK") y = true)) :=
  ⟨⟨by decide, by decide⟩,
    canonical_casing_amended lowDE ["milk"] ["Milk"] "MILK" "milk" (by decide) (by decide)⟩

end Listy
